import Mathlib

/-!
Verification of the mcp-redis server core (src/server.rs, src/error.rs).

The Rust source is shallowly embedded: the Redis store is modelled as a
record of response functions (one per command the server issues), so every
theorem quantifies over arbitrary store behaviour.  Stateful async code
becomes explicit state passing; every server operation returns both its
result (the structured payload that the source serializes to JSON text,
or the classified rmcp error) and the trace of store commands it issued,
so that claims of the form "no round trip is issued" are literal
statements about the trace.

Machine integers: u32/usize values are Nat (the source only narrows with
`min`, never wraps); i64 values are Int, and the one `as usize` cast is
modelled with an explicit mod 2^64.  The f64 scores Redis returns are
carried verbatim by the server (no arithmetic is performed on them), so
they are represented by an exact numeric carrier type.
-/

namespace McpRedis

/-- Carrier for the f64 scores returned by Redis.  The server never
computes with scores, it only transports them from the store reply into
the JSON payload, so an exact numeric type represents them faithfully. -/
abbrev Score := Rat

/-- The ASCII single-quote character, used in several source messages. -/
def sq : String := String.singleton (Char.ofNat 39)

/-- Model of serde_json values as built by the source.  serde_json
distinguishes integer numbers (e.g. `keys.len()`) from floating-point
numbers (e.g. zset scores), mirrored by the `int`/`float` constructors.
Objects are kept in the order the source inserts their fields. -/
inductive Json where
  | null
  | bool (b : Bool)
  | str (s : String)
  | int (n : Int)
  | float (x : Score)
  | arr (elems : List Json)
  | obj (fields : List (String × Json))

/-- src/error.rs: `enum McpRedisError`.  The `Redis` variant carries the
underlying redis error rendered to its message string. -/
inductive McpRedisError where
  | Redis (msg : String)
  | ConnectionNotFound (name : String)
  | AmbiguousConnection
  | ReadOnly (msg : String)
  | Other (msg : String)
deriving DecidableEq

/-- The `#[error(...)]` display strings of src/error.rs, used by
`to_mcp_error` via `self.to_string()`. -/
def McpRedisError.message : McpRedisError → String
  | .Redis m => "Redis error: " ++ m
  | .ConnectionNotFound n => "Connection not found: " ++ n
  | .AmbiguousConnection =>
      "Ambiguous connection: multiple Redis instances connected, specify "
        ++ sq ++ "connection" ++ sq ++ " parameter"
  | .ReadOnly m => "Write operation rejected: " ++ m
  | .Other m => m

/-- rmcp `ErrorData` restricted to the two classifications the source
produces: `ErrorData::invalid_params` and `ErrorData::internal_error`,
each carrying the message string. -/
inductive ErrorData where
  | invalidParams (msg : String)
  | internalError (msg : String)
deriving DecidableEq

/-- Whether an `ErrorData` is in the invalid-input class. -/
def ErrorData.isInvalidParams : ErrorData → Bool
  | .invalidParams _ => true
  | .internalError _ => false

/-- src/error.rs: `McpRedisError::to_mcp_error`. -/
def to_mcp_error (e : McpRedisError) : ErrorData :=
  match e with
  | .ConnectionNotFound _ | .AmbiguousConnection => .invalidParams e.message
  | .ReadOnly _ => .invalidParams e.message
  | .Redis _ | .Other _ => .internalError e.message

/-- src/server.rs: `struct RedisConnection`, minus the live client handle
(the handle's behaviour is modelled separately by `Store`). -/
structure RedisConnection where
  name : String
  url_redacted : String
deriving DecidableEq

/-- src/server.rs: `struct McpRedisServer` (the tool router is transport
glue and not modelled). -/
structure McpRedisServer where
  connections : List RedisConnection
  allow_write : Bool
  scan_count : Nat
deriving DecidableEq

/-- src/server.rs `MAX_SCAN_ITERATIONS`: maximum number of SCAN
iterations as a safety valve. -/
def MAX_SCAN_ITERATIONS : Nat := 1000

/-- src/server.rs: `McpRedisServer::resolve`.  `find` is the first
match in registry order; `connections[0]` of a length-1 registry is the
single entry. -/
def McpRedisServer.resolve (s : McpRedisServer) (name : Option String) :
    Except McpRedisError RedisConnection :=
  match name with
  | some n =>
    match s.connections.find? (fun c => c.name == n) with
    | some c => .ok c
    | none => .error (.ConnectionNotFound n)
  | none =>
    match s.connections with
    | [c] => .ok c
    | _ => .error .AmbiguousConnection

/-- src/server.rs: `McpRedisServer::validate_pattern`.  Rust
`pattern.contains(char)` holds iff some character of the string is that
character. -/
def validate_pattern (pattern : String) : Except McpRedisError Unit :=
  if pattern.data.any (fun c => c == Char.ofNat 0) then
    .error (.Other "Pattern must not contain null bytes")
  else
    .ok ()

/-- The store commands the server issues, recorded in each operation's
trace in issue order. -/
inductive Cmd where
  | scan (cursor : Nat) (pattern : String) (count : Nat)
  | typeCmd (key : String)
  | get (key : String)
  | lrange (key : String) (start stop : Int)
  | smembers (key : String)
  | zrange (key : String) (start stop : Int)
  | hgetall (key : String)
  | pipelineTypes (keys : List String)
deriving DecidableEq

/-- Adversarial model of the backing Redis instance: one response
function per command shape the server issues, each returning either a
reply or a redis-level error message.  `scan` is indexed by the
round-trip number within one operation call, so quantifying over stores
quantifies over every possible sequence of SCAN responses. -/
structure Store where
  scan : Nat → Except String (Nat × List String)
  typeOf : String → Except String String
  get : String → Except String String
  lrange : String → Int → Int → Except String (List String)
  smembers : String → Except String (List String)
  zrange : String → Int → Int → Except String (List (String × Score))
  hgetall : String → Except String (List (String × String))
  pipelineTypes : List String → Except String (List String)

/-- Rust `c as usize` for `c : i64`: wraps modulo 2^64. -/
def usizeOfInt (c : Int) : Nat := (c % (2:Int) ^ 64).toNat

/-- Model of the index contract of Redis ZRANGE (and LRANGE) that the
source relies on: `start`/`stop` are inclusive indices into the
score-ordered member list, negative indices count from the end, `start`
is clamped to 0, `stop` is clamped to the last index, and an inverted
range is empty. -/
def rangeSlice {α : Type} (l : List α) (start stop : Int) : List α :=
  let n : Int := l.length
  let s : Int := if start < 0 then max (n + start) 0 else start
  let e : Int := if stop < 0 then n + stop else min stop (n - 1)
  if s ≤ e then (l.drop s.toNat).take (e - s + 1).toNat else []

/-- src/server.rs `ScanParams` (the SCAN tool parameter record);
`count` is the optional requested cap (u32). -/
structure ScanParams where
  connection : Option String
  pattern : Option String
  count : Option Nat
deriving DecidableEq

/-- src/server.rs `SetMembersParams`; `count` is the optional member
cap (i64). -/
structure SetMembersParams where
  connection : Option String
  key : String
  count : Option Int
deriving DecidableEq

/-- The SCAN loop shared verbatim by `do_scan_keys` (src/server.rs
lines 243-261) and `do_search_keys` (lines 424-442).  One recursive
call per `loop` pass; `fuel` is the structural bound and is started at
`MAX_SCAN_ITERATIONS`, which the loop guard `iterations >=
MAX_SCAN_ITERATIONS` makes unreachable at 0 (proved below); the 0 case
returns the current state.  A pass appends the batch, advances the
cursor, increments `iterations`, and breaks when the returned cursor is
0, the accumulated keys reach `maxKeys`, or `iterations` reaches
`MAX_SCAN_ITERATIONS`.  A store error aborts the call.  The trace
records each SCAN round trip with the cursor actually sent and the
fixed page-size hint 100. -/
def scanLoop (store : Store) (pattern : String) (maxKeys : Nat) :
    List String → Nat → Nat → Nat →
    Except String (List String × Nat) × List Cmd
  | keys, _cursor, iterations, 0 => (.ok (keys, iterations), [])
  | keys, cursor, iterations, fuel+1 =>
    match store.scan iterations with
    | .error e => (.error e, [Cmd.scan cursor pattern 100])
    | .ok cb =>
      let keys2 := keys ++ cb.2
      let iterations2 := iterations + 1
      if cb.1 = 0 ∨ maxKeys ≤ keys2.length ∨ MAX_SCAN_ITERATIONS ≤ iterations2 then
        (.ok (keys2, iterations2), [Cmd.scan cursor pattern 100])
      else
        let r := scanLoop store pattern maxKeys keys2 cb.1 iterations2 fuel
        (r.1, Cmd.scan cursor pattern 100 :: r.2)

/-- The success payload of `do_scan_keys`: the `json!` object with the
pattern, the key list, and `count = keys.len()`. -/
def scanPayload (pattern : String) (keys : List String) : Json :=
  .obj [("pattern", .str pattern), ("keys", .arr (keys.map .str)),
        ("count", .int keys.length)]

/-- src/server.rs: `do_scan_keys`.  Resolution and pattern validation
happen before any store command; the effective cap is
`min(params.count.unwrap_or(scan_count), scan_count)`; after the loop
the keys are truncated to the effective cap. -/
def McpRedisServer.doScanKeys (s : McpRedisServer) (store : Store)
    (params : ScanParams) : Except ErrorData Json × List Cmd :=
  match s.resolve params.connection with
  | .error e => (.error (to_mcp_error e), [])
  | .ok _ =>
    let pattern := params.pattern.getD "*"
    match validate_pattern pattern with
    | .error e => (.error (to_mcp_error e), [])
    | .ok _ =>
      let maxKeys := min (params.count.getD s.scan_count) s.scan_count
      let r := scanLoop store pattern maxKeys [] 0 0 MAX_SCAN_ITERATIONS
      match r.1 with
      | .error e => (.error (to_mcp_error (.Redis e)), r.2)
      | .ok ki => (.ok (scanPayload pattern (ki.1.take maxKeys)), r.2)

/-- The success payload of `do_search_keys`: the `json!` object with
the pattern, the annotated key objects, and `count = results.len()`. -/
def searchPayload (pattern : String) (results : List Json) : Json :=
  .obj [("pattern", .str pattern), ("keys", .arr results),
        ("count", .int results.length)]

/-- src/server.rs: `do_search_keys`.  Identical resolution, validation,
cap and SCAN loop as `do_scan_keys`; then, for a non-empty key list,
one pipelined batch of TYPE commands whose failure degrades to the
sentinel type string for every key (`unwrap_or_else`), and the keys are
zipped with the returned types. -/
def McpRedisServer.doSearchKeys (s : McpRedisServer) (store : Store)
    (params : ScanParams) : Except ErrorData Json × List Cmd :=
  match s.resolve params.connection with
  | .error e => (.error (to_mcp_error e), [])
  | .ok _ =>
    let pattern := params.pattern.getD "*"
    match validate_pattern pattern with
    | .error e => (.error (to_mcp_error e), [])
    | .ok _ =>
      let maxKeys := min (params.count.getD s.scan_count) s.scan_count
      let r := scanLoop store pattern maxKeys [] 0 0 MAX_SCAN_ITERATIONS
      match r.1 with
      | .error e => (.error (to_mcp_error (.Redis e)), r.2)
      | .ok ki =>
        let keys := ki.1.take maxKeys
        if keys.isEmpty then
          (.ok (searchPayload pattern []), r.2)
        else
          let types :=
            match store.pipelineTypes keys with
            | .ok ts => ts
            | .error _ => List.replicate keys.length "unknown"
          let results := (keys.zip types).map
            (fun kt => Json.obj [("key", .str kt.1), ("type", .str kt.2)])
          (.ok (searchPayload pattern results), r.2 ++ [Cmd.pipelineTypes keys])

/-- The success payload of `do_get` for an existing key of a handled
type: the `json!` object with the key, its reported type, and the
normalized value. -/
def getPayload (key keyType : String) (value : Json) : Json :=
  .obj [("key", .str key), ("type", .str keyType), ("value", value)]

/-- The member/score object built for each zset entry: the score is
emitted as a JSON number (`float`), never as a string. -/
def memberObj (e : String × Score) : Json :=
  .obj [("member", .str e.1), ("score", .float e.2)]

/-- src/server.rs: `do_get`.  One TYPE round trip, then a dispatch on
the reported type string (Rust matches `key_type.as_str()` against the
literals, modelled as the same chain of string comparisons) issuing at
most one follow-up retrieval; the reported type "none" returns the
absent payload immediately with no follow-up command, and an
unrecognized type returns the unsupported-type value with no follow-up
command. -/
def McpRedisServer.doGet (s : McpRedisServer) (store : Store)
    (connection : Option String) (key : String) :
    Except ErrorData Json × List Cmd :=
  match s.resolve connection with
  | .error e => (.error (to_mcp_error e), [])
  | .ok _ =>
    match store.typeOf key with
    | .error e => (.error (to_mcp_error (.Redis e)), [Cmd.typeCmd key])
    | .ok keyType =>
      if keyType = "string" then
        match store.get key with
        | .error e => (.error (to_mcp_error (.Redis e)), [Cmd.typeCmd key, Cmd.get key])
        | .ok v =>
          (.ok (getPayload key keyType (.str v)), [Cmd.typeCmd key, Cmd.get key])
      else if keyType = "list" then
        match store.lrange key 0 (-1) with
        | .error e => (.error (to_mcp_error (.Redis e)), [Cmd.typeCmd key, Cmd.lrange key 0 (-1)])
        | .ok v =>
          (.ok (getPayload key keyType (.arr (v.map .str))), [Cmd.typeCmd key, Cmd.lrange key 0 (-1)])
      else if keyType = "set" then
        match store.smembers key with
        | .error e => (.error (to_mcp_error (.Redis e)), [Cmd.typeCmd key, Cmd.smembers key])
        | .ok v =>
          (.ok (getPayload key keyType (.arr (v.map .str))), [Cmd.typeCmd key, Cmd.smembers key])
      else if keyType = "zset" then
        match store.zrange key 0 (-1) with
        | .error e => (.error (to_mcp_error (.Redis e)), [Cmd.typeCmd key, Cmd.zrange key 0 (-1)])
        | .ok v =>
          (.ok (getPayload key keyType (.arr (v.map memberObj))), [Cmd.typeCmd key, Cmd.zrange key 0 (-1)])
      else if keyType = "hash" then
        match store.hgetall key with
        | .error e => (.error (to_mcp_error (.Redis e)), [Cmd.typeCmd key, Cmd.hgetall key])
        | .ok v =>
          (.ok (getPayload key keyType (.obj (v.map (fun fv => (fv.1, Json.str fv.2))))),
           [Cmd.typeCmd key, Cmd.hgetall key])
      else if keyType = "none" then
        (.ok (.obj [("error", .str "Key does not exist"), ("key", .str key)]),
         [Cmd.typeCmd key])
      else
        (.ok (getPayload key keyType
              (.obj [("type", .str keyType), ("note", .str "Unsupported type")])),
         [Cmd.typeCmd key])

/-- The success payload of `do_get_set_members` for a set key. -/
def setMembersPayload (key : String) (limited : List String) : Json :=
  .obj [("key", .str key), ("type", .str "set"),
        ("members", .arr (limited.map .str)), ("count", .int limited.length)]

/-- The success payload of `do_get_set_members` for a zset key. -/
def zsetMembersPayload (key : String) (members : List (String × Score)) : Json :=
  .obj [("key", .str key), ("type", .str "zset"),
        ("members", .arr (members.map memberObj)), ("count", .int members.length)]

/-- src/server.rs: `do_get_set_members`.  One TYPE round trip, then:
for "set", SMEMBERS with an optional `take(count as usize)` cap; for
"zset", ZRANGE 0 `(count - 1, or -1 when absent)` WITHSCORES; for
"none", the absent payload; for any other type, the wrong-type payload
(`format!` with the raw type name) — the latter two with no follow-up
command and as successes, never typed failures. -/
def McpRedisServer.doGetSetMembers (s : McpRedisServer) (store : Store)
    (params : SetMembersParams) : Except ErrorData Json × List Cmd :=
  match s.resolve params.connection with
  | .error e => (.error (to_mcp_error e), [])
  | .ok _ =>
    match store.typeOf params.key with
    | .error e => (.error (to_mcp_error (.Redis e)), [Cmd.typeCmd params.key])
    | .ok keyType =>
      if keyType = "set" then
        match store.smembers params.key with
        | .error e =>
          (.error (to_mcp_error (.Redis e)), [Cmd.typeCmd params.key, Cmd.smembers params.key])
        | .ok members =>
          let limited :=
            match params.count with
            | some c => members.take (usizeOfInt c)
            | none => members
          (.ok (setMembersPayload params.key limited),
           [Cmd.typeCmd params.key, Cmd.smembers params.key])
      else if keyType = "zset" then
        let stop : Int :=
          match params.count with
          | some c => c - 1
          | none => -1
        match store.zrange params.key 0 stop with
        | .error e =>
          (.error (to_mcp_error (.Redis e)),
           [Cmd.typeCmd params.key, Cmd.zrange params.key 0 stop])
        | .ok members =>
          (.ok (zsetMembersPayload params.key members),
           [Cmd.typeCmd params.key, Cmd.zrange params.key 0 stop])
      else if keyType = "none" then
        (.ok (.obj [("error", .str "Key does not exist"), ("key", .str params.key)]),
         [Cmd.typeCmd params.key])
      else
        (.ok (.obj [("error", .str ("Key is type " ++ sq ++ keyType ++ sq
                                      ++ ", not a set or zset")),
                    ("key", .str params.key)]),
         [Cmd.typeCmd params.key])

/-! ### Helper lemmas -/

theorem find?_append_first {α : Type} (p : α → Bool) :
    ∀ (l1 : List α) (c : α) (l2 : List α),
      (∀ x ∈ l1, p x = false) → p c = true →
      (l1 ++ c :: l2).find? p = some c := by
  intro l1
  induction l1 with
  | nil =>
    intro c l2 _ hp
    simp [List.find?_cons, hp]
  | cons x xs ih =>
    intro c l2 h hp
    have hx : p x = false := h x (List.mem_cons_self x xs)
    rw [List.cons_append, List.find?_cons]
    simp only [hx]
    exact ih c l2 (fun y hy => h y (List.mem_cons_of_mem x hy)) hp

theorem zip_replicate_eq_map {α β : Type} (l : List α) (b : β) :
    l.zip (List.replicate l.length b) = l.map (fun a => (a, b)) := by
  induction l with
  | nil => rfl
  | cons x xs ih => rw [List.length_cons, List.replicate_succ, List.zip_cons_cons, ih, List.map_cons]

/-- A SCAN round trip whose response has cursor 0 and an empty batch
makes the loop stop at once with the keys it entered with. -/
theorem scanLoop_stop_now (store : Store) (pattern : String) (maxKeys : Nat)
    (keys : List String) (cursor iterations fuel : Nat)
    (hsc : store.scan iterations = .ok (0, [])) :
    scanLoop store pattern maxKeys keys cursor iterations (fuel+1) =
      (.ok (keys, iterations+1), [Cmd.scan cursor pattern 100]) := by
  simp [scanLoop, hsc]

/-- Unfolding: a loop pass whose SCAN response errors aborts the call. -/
theorem scanLoop_succ_err (store : Store) (pattern : String) (maxKeys : Nat)
    (keys : List String) (cursor iterations fuel : Nat) (e : String)
    (hsc : store.scan iterations = .error e) :
    scanLoop store pattern maxKeys keys cursor iterations (fuel+1) =
      (.error e, [Cmd.scan cursor pattern 100]) := by
  simp only [scanLoop, hsc]

/-- Unfolding: a loop pass whose post-append state meets the break
condition stops with that state. -/
theorem scanLoop_succ_ok_stop (store : Store) (pattern : String) (maxKeys : Nat)
    (keys : List String) (cursor iterations fuel : Nat) (cb : Nat × List String)
    (hsc : store.scan iterations = .ok cb)
    (hstop : cb.1 = 0 ∨ maxKeys ≤ (keys ++ cb.2).length ∨
      MAX_SCAN_ITERATIONS ≤ iterations + 1) :
    scanLoop store pattern maxKeys keys cursor iterations (fuel+1) =
      (.ok (keys ++ cb.2, iterations + 1), [Cmd.scan cursor pattern 100]) := by
  simp only [scanLoop, hsc]
  rw [if_pos hstop]

/-- Unfolding: a loop pass whose post-append state misses the break
condition continues with the advanced state. -/
theorem scanLoop_succ_ok_go (store : Store) (pattern : String) (maxKeys : Nat)
    (keys : List String) (cursor iterations fuel : Nat) (cb : Nat × List String)
    (hsc : store.scan iterations = .ok cb)
    (hstop : ¬ (cb.1 = 0 ∨ maxKeys ≤ (keys ++ cb.2).length ∨
      MAX_SCAN_ITERATIONS ≤ iterations + 1)) :
    scanLoop store pattern maxKeys keys cursor iterations (fuel+1) =
      ((scanLoop store pattern maxKeys (keys ++ cb.2) cb.1 (iterations + 1) fuel).1,
       Cmd.scan cursor pattern 100 ::
         (scanLoop store pattern maxKeys (keys ++ cb.2) cb.1 (iterations + 1) fuel).2) := by
  simp only [scanLoop, hsc]
  rw [if_neg hstop]

/-- Inversion for a successful `do_scan_keys`: the payload is the scan
payload of some key list whose length is at most the effective cap
`min(requested, scan_count)`. -/
theorem doScanKeys_ok_inv (s : McpRedisServer) (store : Store)
    (params : ScanParams) (payload : Json) (tr : List Cmd)
    (heq : s.doScanKeys store params = (.ok payload, tr)) :
    ∃ keys : List String,
      payload = scanPayload (params.pattern.getD "*") keys ∧
      keys.length ≤ min (params.count.getD s.scan_count) s.scan_count := by
  simp only [McpRedisServer.doScanKeys] at heq
  split at heq
  · simp at heq
  · split at heq
    · simp at heq
    · split at heq
      · simp at heq
      next ki hki =>
        simp only [Prod.mk.injEq, Except.ok.injEq] at heq
        refine ⟨_, heq.1.symm, ?_⟩
        rw [List.length_take]
        exact min_le_left _ _

/-- Inversion for a successful `do_search_keys`: the payload is the
search payload of some annotated list whose length is at most the
effective cap. -/
theorem doSearchKeys_ok_inv (s : McpRedisServer) (store : Store)
    (params : ScanParams) (payload : Json) (tr : List Cmd)
    (heq : s.doSearchKeys store params = (.ok payload, tr)) :
    ∃ results : List Json,
      payload = searchPayload (params.pattern.getD "*") results ∧
      results.length ≤ min (params.count.getD s.scan_count) s.scan_count := by
  simp only [McpRedisServer.doSearchKeys] at heq
  split at heq
  · simp at heq
  · split at heq
    · simp at heq
    · split at heq
      · simp at heq
      next ki hki =>
        split at heq
        · simp only [Prod.mk.injEq, Except.ok.injEq] at heq
          exact ⟨[], heq.1.symm, Nat.zero_le _⟩
        · simp only [Prod.mk.injEq, Except.ok.injEq] at heq
          refine ⟨_, heq.1.symm, ?_⟩
          rw [List.length_map, List.length_zip, List.length_take]
          exact le_trans (min_le_left _ _) (min_le_left _ _)

/-- ZRANGE 0 -1 denotes the whole list. -/
theorem rangeSlice_zero_neg_one {α : Type} (l : List α) : rangeSlice l 0 (-1) = l := by
  simp only [rangeSlice]
  rw [if_neg (by omega : ¬ (0:Int) < 0), if_pos (by omega : (-1:Int) < 0)]
  cases l with
  | nil => simp
  | cons x xs =>
    rw [if_pos (by simp only [List.length_cons]; omega)]
    have ht : (((x :: xs).length : Int) + -1 - 0 + 1).toNat = (x :: xs).length := by
      simp only [List.length_cons]
      omega
    rw [ht]
    simp [List.take_length]

/-- ZRANGE 0 stop with stop at least 0 denotes the first stop+1
elements. -/
theorem rangeSlice_zero_nonneg {α : Type} (l : List α) (stop : Int) (h : 0 ≤ stop) :
    rangeSlice l 0 stop = l.take (stop.toNat + 1) := by
  simp only [rangeSlice]
  rw [if_neg (by omega : ¬ (0:Int) < 0), if_neg (by omega : ¬ stop < 0)]
  by_cases hc : stop ≤ (l.length : Int) - 1
  · rw [min_eq_left hc, if_pos (by omega)]
    have ht : (stop - 0 + 1).toNat = stop.toNat + 1 := by omega
    rw [ht]
    simp
  · rw [min_eq_right (by omega)]
    cases l with
    | nil => simp
    | cons x xs =>
      rw [if_pos (by simp only [List.length_cons]; omega)]
      have ht : (((x :: xs).length : Int) - 1 - 0 + 1).toNat = (x :: xs).length := by
        simp only [List.length_cons]
        omega
      rw [ht]
      have hlen : (x :: xs).length ≤ stop.toNat + 1 := by
        simp only [List.length_cons] at hc ⊢
        omega
      simp [List.take_length, List.take_of_length_le hlen]

/-! ### Fixtures used by the witness theorems -/

/-- A one-entry registry server with the default scan cap 100. -/
def srv1 : McpRedisServer := ⟨[⟨"redis", "redis://127.0.0.1:6379"⟩], false, 100⟩

/-- A store whose every non-TYPE response is an error and whose TYPE
response reports an absent key. -/
def absentStore : Store :=
  ⟨fun _ => .error "boom", fun _ => .ok "none", fun _ => .error "boom",
   fun _ _ _ => .error "boom", fun _ => .error "boom",
   fun _ _ _ => .error "boom", fun _ => .error "boom", fun _ => .error "boom"⟩

/-- A store that reports every key as a stream, to exercise the
unrecognized-type arms. -/
def streamStore : Store :=
  ⟨fun _ => .error "boom", fun _ => .ok "stream", fun _ => .error "boom",
   fun _ _ _ => .error "boom", fun _ => .error "boom",
   fun _ _ _ => .error "boom", fun _ => .error "boom", fun _ => .error "boom"⟩

/-- A pattern containing a null byte. -/
def nulPattern : String := String.mk ['a', Char.ofNat 0, 'b']

/-- A store over an empty keyspace: every SCAN response has cursor 0
and an empty batch. -/
def emptyKeyspaceStore : Store :=
  ⟨fun _ => .ok (0, []), fun _ => .ok "none", fun _ => .error "boom",
   fun _ _ _ => .error "boom", fun _ => .error "boom",
   fun _ _ _ => .error "boom", fun _ => .error "boom", fun _ => .error "boom"⟩

/-- A store whose SCAN responses always carry a nonzero cursor and one
key per page, so a scan over it can only stop via the cap or the
iteration ceiling. -/
def cyclingStore : Store :=
  ⟨fun _ => .ok (1, ["k"]), fun _ => .ok "string", fun _ => .error "boom",
   fun _ _ _ => .error "boom", fun _ => .error "boom",
   fun _ _ _ => .error "boom", fun _ => .error "boom", fun _ => .error "boom"⟩

/-- A store whose single SCAN page yields two keys and terminates, and
whose pipelined TYPE batch fails. -/
def pipeFailStore : Store :=
  ⟨fun _ => .ok (0, ["k1", "k2"]), fun _ => .ok "string", fun _ => .error "boom",
   fun _ _ _ => .error "boom", fun _ => .error "boom",
   fun _ _ _ => .error "boom", fun _ => .error "boom",
   fun _ => .error "pipeline failed"⟩

/-! ### C1 — scan results never exceed the effective cap -/

/-- C1: for every store behaviour (hence every keyspace), pattern and
cap choice, a successful `do_scan_keys` (resp. `do_search_keys`)
returns a payload whose key list has length at most
`min(requested cap or scan_count, scan_count)` and whose count field is
exactly that list's length; on an empty keyspace (every SCAN response
is cursor 0 with no keys) the returned list is empty and the count is
0. -/
theorem scan_result_capped (s : McpRedisServer) (store : Store)
    (conn : Option String) (patOpt : Option String) (cnt : Option Nat)
    (c : RedisConnection)
    (hres : s.resolve conn = .ok c)
    (hval : validate_pattern (patOpt.getD "*") = .ok ()) :
    (∀ payload tr, s.doScanKeys store ⟨conn, patOpt, cnt⟩ = (.ok payload, tr) →
      ∃ keys : List String,
        payload = .obj [("pattern", .str (patOpt.getD "*")),
                        ("keys", .arr (keys.map .str)),
                        ("count", .int keys.length)]
        ∧ keys.length ≤ min (cnt.getD s.scan_count) s.scan_count)
    ∧ (∀ payload tr, s.doSearchKeys store ⟨conn, patOpt, cnt⟩ = (.ok payload, tr) →
      ∃ results : List Json,
        payload = .obj [("pattern", .str (patOpt.getD "*")),
                        ("keys", .arr results),
                        ("count", .int results.length)]
        ∧ results.length ≤ min (cnt.getD s.scan_count) s.scan_count)
    ∧ ((∀ i, store.scan i = .ok (0, [])) →
      s.doScanKeys store ⟨conn, patOpt, cnt⟩ =
        (.ok (.obj [("pattern", .str (patOpt.getD "*")),
                    ("keys", .arr ([] : List Json)), ("count", .int 0)]),
         [Cmd.scan 0 (patOpt.getD "*") 100])) := by
  refine ⟨?_, ?_, ?_⟩
  · intro payload tr heq
    obtain ⟨keys, h1, h2⟩ := doScanKeys_ok_inv s store ⟨conn, patOpt, cnt⟩ payload tr heq
    exact ⟨keys, h1, h2⟩
  · intro payload tr heq
    obtain ⟨results, h1, h2⟩ := doSearchKeys_ok_inv s store ⟨conn, patOpt, cnt⟩ payload tr heq
    exact ⟨results, h1, h2⟩
  · intro hempty
    simp only [McpRedisServer.doScanKeys, hres, hval]
    rw [show MAX_SCAN_ITERATIONS = 999 + 1 from rfl,
        scanLoop_stop_now store (patOpt.getD "*") _ [] 0 0 999 (hempty 0)]
    simp [scanPayload]

/-- Witness for C1: a concrete one-entry server over the empty
keyspace, exercising both operations and the empty-keyspace clause. -/
theorem scan_result_capped_witness :
    (∀ payload tr,
      srv1.doScanKeys emptyKeyspaceStore ⟨none, none, some 7⟩ = (.ok payload, tr) →
      ∃ keys : List String,
        payload = .obj [("pattern", .str "*"), ("keys", .arr (keys.map .str)),
                        ("count", .int keys.length)]
        ∧ keys.length ≤ min 7 100)
    ∧ srv1.doScanKeys emptyKeyspaceStore ⟨none, none, some 7⟩ =
        (.ok (.obj [("pattern", .str "*"), ("keys", .arr ([] : List Json)),
                    ("count", .int 0)]),
         [Cmd.scan 0 "*" 100]) := by
  have h := scan_result_capped srv1 emptyKeyspaceStore none none (some 7)
    ⟨"redis", "redis://127.0.0.1:6379"⟩ rfl rfl
  exact ⟨h.1, h.2.2 (fun _ => rfl)⟩

/-! ### C6 — batch TYPE failure degrades to "unknown" -/

/-- C6: in `do_search_keys`, when the SCAN loop succeeds with a
non-empty (truncated) key list and the pipelined TYPE batch fails, the
operation still succeeds, annotating every key — one annotation per
key, in key-list order — with the sentinel type "unknown"; the batch
failure is not propagated. -/
theorem searchKeys_batch_failure_degrades (s : McpRedisServer) (store : Store)
    (params : ScanParams) (c : RedisConnection)
    (keys0 : List String) (n : Nat) (tr : List Cmd) (err : String)
    (hres : s.resolve params.connection = .ok c)
    (hval : validate_pattern (params.pattern.getD "*") = .ok ())
    (hloop : scanLoop store (params.pattern.getD "*")
        (min (params.count.getD s.scan_count) s.scan_count) [] 0 0
        MAX_SCAN_ITERATIONS = (.ok (keys0, n), tr))
    (hne : keys0.take (min (params.count.getD s.scan_count) s.scan_count) ≠ [])
    (hpipe : store.pipelineTypes
        (keys0.take (min (params.count.getD s.scan_count) s.scan_count)) =
        .error err) :
    s.doSearchKeys store params =
      (.ok (searchPayload (params.pattern.getD "*")
        ((keys0.take (min (params.count.getD s.scan_count) s.scan_count)).map
          (fun k => Json.obj [("key", .str k), ("type", .str "unknown")]))),
       tr ++ [Cmd.pipelineTypes
         (keys0.take (min (params.count.getD s.scan_count) s.scan_count))]) := by
  simp only [McpRedisServer.doSearchKeys, hres, hval, hloop]
  rw [if_neg (by simpa using hne), hpipe, zip_replicate_eq_map, List.map_map]
  rfl

/-- Witness for C6: a concrete store whose single SCAN page returns two
keys and whose TYPE pipeline fails. -/
theorem searchKeys_batch_failure_degrades_witness :
    srv1.doSearchKeys pipeFailStore ⟨none, none, none⟩ =
      (.ok (searchPayload "*"
        ((["k1", "k2"].take (min ((none : Option Nat).getD srv1.scan_count)
            srv1.scan_count)).map
          (fun k => Json.obj [("key", .str k), ("type", .str "unknown")]))),
       [Cmd.scan 0 "*" 100] ++ [Cmd.pipelineTypes
         (["k1", "k2"].take (min ((none : Option Nat).getD srv1.scan_count)
            srv1.scan_count))]) :=
  searchKeys_batch_failure_degrades srv1 pipeFailStore ⟨none, none, none⟩
    ⟨"redis", "redis://127.0.0.1:6379"⟩ ["k1", "k2"] 1 [Cmd.scan 0 "*" 100]
    "pipeline failed" rfl rfl rfl (by decide) rfl

/-! ### C2 — scan-loop termination and the first-stop characterization -/

/-- The batch of keys delivered by round trip `i` of the store's SCAN
response sequence (empty if the store errors there). -/
def batchAt (store : Store) (i : Nat) : List String :=
  match store.scan i with
  | .ok cb => cb.2
  | .error _ => []

/-- The cursor delivered by round trip `i` of the store's SCAN response
sequence (0 if the store errors there). -/
def cursorAt (store : Store) (i : Nat) : Nat :=
  match store.scan i with
  | .ok cb => cb.1
  | .error _ => 0

/-- The keys accumulated after `m` SCAN round trips. -/
def accKeys (store : Store) : Nat → List String
  | 0 => []
  | m+1 => accKeys store m ++ batchAt store m

/-- The loop's break condition as observed after round trip `m` (for
`m ≥ 1`): the returned cursor is the origin 0, or the accumulated keys
reach the effective cap, or the round-trip counter reaches
`MAX_SCAN_ITERATIONS`. -/
def stopAfter (store : Store) (maxKeys m : Nat) : Prop :=
  cursorAt store (m - 1) = 0 ∨ maxKeys ≤ (accKeys store m).length ∨
    MAX_SCAN_ITERATIONS ≤ m

instance (store : Store) (maxKeys m : Nat) :
    Decidable (stopAfter store maxKeys m) := by
  unfold stopAfter
  infer_instance

/-- One unit of fuel beyond what the iteration guard can consume makes
no difference: the loop's result is fuel-insensitive from
`MAX_SCAN_ITERATIONS - iterations` onward. -/
theorem scanLoop_fuel_step (store : Store) (pattern : String) (maxKeys : Nat) :
    ∀ (fuel : Nat) (keys : List String) (cursor iterations : Nat),
      iterations < MAX_SCAN_ITERATIONS →
      MAX_SCAN_ITERATIONS ≤ iterations + fuel →
      scanLoop store pattern maxKeys keys cursor iterations (fuel+1) =
        scanLoop store pattern maxKeys keys cursor iterations fuel := by
  intro fuel
  induction fuel with
  | zero =>
    intro keys cursor iterations h1 h2
    omega
  | succ f ih =>
    intro keys cursor iterations h1 h2
    cases hsc : store.scan iterations with
    | error e =>
      rw [scanLoop_succ_err store pattern maxKeys keys cursor iterations (f+1) e hsc,
          scanLoop_succ_err store pattern maxKeys keys cursor iterations f e hsc]
    | ok cb =>
      by_cases hstop : cb.1 = 0 ∨ maxKeys ≤ (keys ++ cb.2).length ∨
          MAX_SCAN_ITERATIONS ≤ iterations + 1
      · rw [scanLoop_succ_ok_stop store pattern maxKeys keys cursor iterations (f+1) cb hsc hstop,
            scanLoop_succ_ok_stop store pattern maxKeys keys cursor iterations f cb hsc hstop]
      · rw [scanLoop_succ_ok_go store pattern maxKeys keys cursor iterations (f+1) cb hsc hstop,
            scanLoop_succ_ok_go store pattern maxKeys keys cursor iterations f cb hsc hstop,
            ih (keys ++ cb.2) cb.1 (iterations + 1) (by omega) (by omega)]

/-- The loop issues at most `fuel` SCAN round trips. -/
theorem scanLoop_trace_le (store : Store) (pattern : String) (maxKeys : Nat) :
    ∀ (fuel : Nat) (keys : List String) (cursor iterations : Nat),
      (scanLoop store pattern maxKeys keys cursor iterations fuel).2.length ≤ fuel := by
  intro fuel
  induction fuel with
  | zero => intro keys cursor iterations; simp [scanLoop]
  | succ f ih =>
    intro keys cursor iterations
    cases hsc : store.scan iterations with
    | error e =>
      rw [scanLoop_succ_err store pattern maxKeys keys cursor iterations f e hsc]
      simp
    | ok cb =>
      by_cases hstop : cb.1 = 0 ∨ maxKeys ≤ (keys ++ cb.2).length ∨
          MAX_SCAN_ITERATIONS ≤ iterations + 1
      · rw [scanLoop_succ_ok_stop store pattern maxKeys keys cursor iterations f cb hsc hstop]
        simp
      · rw [scanLoop_succ_ok_go store pattern maxKeys keys cursor iterations f cb hsc hstop]
        have := ih (keys ++ cb.2) cb.1 (iterations + 1)
        simp only [List.length_cons]
        omega

/-- Loop invariant for an error-free response sequence: started after
`iterations` round trips with the accumulated keys, the loop runs up to
the first later round trip `n` whose break condition holds, and that
`n` is at most `MAX_SCAN_ITERATIONS`. -/
theorem scanLoop_spec_aux (store : Store) (pattern : String) (maxKeys : Nat)
    (hok : ∀ i, (store.scan i).isOk) :
    ∀ (fuel iterations cursor : Nat),
      iterations + fuel = MAX_SCAN_ITERATIONS →
      iterations < MAX_SCAN_ITERATIONS →
      ∃ n tr,
        iterations < n ∧ n ≤ MAX_SCAN_ITERATIONS ∧
        scanLoop store pattern maxKeys (accKeys store iterations) cursor
            iterations fuel = (.ok (accKeys store n, n), tr) ∧
        tr.length = n - iterations ∧
        stopAfter store maxKeys n ∧
        (∀ m, iterations < m → m < n → ¬ stopAfter store maxKeys m) := by
  intro fuel
  induction fuel with
  | zero =>
    intro iterations cursor h1 h2
    omega
  | succ f ih =>
    intro iterations cursor h1 h2
    cases hsc : store.scan iterations with
    | error e =>
      have := hok iterations
      rw [hsc] at this
      simp [Except.isOk, Except.toBool] at this
    | ok cb =>
      have hbatch : batchAt store iterations = cb.2 := by
        simp [batchAt, hsc]
      have hcur : cursorAt store iterations = cb.1 := by
        simp [cursorAt, hsc]
      have hacc : accKeys store iterations ++ cb.2 = accKeys store (iterations + 1) := by
        rw [accKeys, hbatch]
      have hstopeq : (cb.1 = 0 ∨ maxKeys ≤ (accKeys store iterations ++ cb.2).length ∨
          MAX_SCAN_ITERATIONS ≤ iterations + 1) ↔
          stopAfter store maxKeys (iterations + 1) := by
        rw [stopAfter, Nat.add_sub_cancel, hcur, hacc]
      by_cases hstop : stopAfter store maxKeys (iterations + 1)
      · refine ⟨iterations + 1, [Cmd.scan cursor pattern 100], by omega, by omega,
          ?_, by simp, hstop, by intro m hm1 hm2; omega⟩
        rw [scanLoop_succ_ok_stop store pattern maxKeys (accKeys store iterations)
              cursor iterations f cb hsc (hstopeq.mpr hstop), hacc]
      · have hlt : iterations + 1 < MAX_SCAN_ITERATIONS :=
          Nat.lt_of_not_le (fun h => hstop (Or.inr (Or.inr h)))
        obtain ⟨n, tr, hn1, hn2, heq, hlen, hsn, hmin⟩ :=
          ih (iterations + 1) cb.1 (by omega) hlt
        refine ⟨n, Cmd.scan cursor pattern 100 :: tr, by omega, hn2, ?_,
          by simp only [List.length_cons]; omega, hsn, ?_⟩
        · rw [scanLoop_succ_ok_go store pattern maxKeys (accKeys store iterations)
                cursor iterations f cb hsc (fun hc => hstop (hstopeq.mp hc)),
              hacc, heq]
        · intro m hm1 hm2
          by_cases hm : m = iterations + 1
          · exact hm ▸ hstop
          · exact hmin m (by omega) hm2

/-- C2: for every sequence of store responses the SCAN loop shared by
`do_scan_keys` and `do_search_keys` terminates — its result at the fuel
bound `MAX_SCAN_ITERATIONS` equals its result at any larger fuel — and
issues at most 1000 round trips; for every error-free response sequence
it stops exactly at the first round trip `n` after which the returned
cursor is 0, or the accumulated key count has reached the effective
cap, or the counter has reached 1000, returning the keys of the first
`n` batches. -/
theorem scanLoop_terminates_first_stop :
    (∀ (store : Store) (pattern : String) (maxKeys fuel : Nat),
      MAX_SCAN_ITERATIONS ≤ fuel →
      scanLoop store pattern maxKeys [] 0 0 fuel =
        scanLoop store pattern maxKeys [] 0 0 MAX_SCAN_ITERATIONS)
    ∧ (∀ (store : Store) (pattern : String) (maxKeys : Nat),
      (scanLoop store pattern maxKeys [] 0 0 MAX_SCAN_ITERATIONS).2.length ≤
        MAX_SCAN_ITERATIONS)
    ∧ (∀ (store : Store) (pattern : String) (maxKeys : Nat),
      (∀ i, (store.scan i).isOk) →
      ∃ n tr, 1 ≤ n ∧ n ≤ MAX_SCAN_ITERATIONS ∧
        scanLoop store pattern maxKeys [] 0 0 MAX_SCAN_ITERATIONS =
          (.ok (accKeys store n, n), tr) ∧
        tr.length = n ∧
        stopAfter store maxKeys n ∧
        (∀ m, 1 ≤ m → m < n → ¬ stopAfter store maxKeys m)) := by
  refine ⟨?_, ?_, ?_⟩
  · intro store pattern maxKeys fuel hf
    obtain ⟨k, rfl⟩ := Nat.exists_eq_add_of_le hf
    clear hf
    induction k with
    | zero => rfl
    | succ j ihj =>
      rw [show MAX_SCAN_ITERATIONS + (j + 1) = (MAX_SCAN_ITERATIONS + j) + 1 from rfl,
          scanLoop_fuel_step store pattern maxKeys (MAX_SCAN_ITERATIONS + j) [] 0 0
            (by decide) (by omega)]
      exact ihj
  · intro store pattern maxKeys
    exact scanLoop_trace_le store pattern maxKeys MAX_SCAN_ITERATIONS [] 0 0
  · intro store pattern maxKeys hok
    obtain ⟨n, tr, hn1, hn2, heq, hlen, hsn, hmin⟩ :=
      scanLoop_spec_aux store pattern maxKeys hok MAX_SCAN_ITERATIONS 0 0
        (by omega) (by decide)
    exact ⟨n, tr, hn1, hn2, heq, by omega, hsn, hmin⟩

/-- Witness for C2 at a concrete store that keeps returning a nonzero
cursor, so only the iteration ceiling can stop the loop. -/
theorem scanLoop_terminates_first_stop_witness :
    (scanLoop cyclingStore "*" 5 [] 0 0 2000 =
      scanLoop cyclingStore "*" 5 [] 0 0 MAX_SCAN_ITERATIONS)
    ∧ (∃ n tr, 1 ≤ n ∧ n ≤ MAX_SCAN_ITERATIONS ∧
        scanLoop cyclingStore "*" 5 [] 0 0 MAX_SCAN_ITERATIONS =
          (.ok (accKeys cyclingStore n, n), tr) ∧
        tr.length = n ∧
        stopAfter cyclingStore 5 n ∧
        (∀ m, 1 ≤ m → m < n → ¬ stopAfter cyclingStore 5 m)) :=
  ⟨scanLoop_terminates_first_stop.1 cyclingStore "*" 5 2000 (by decide),
   scanLoop_terminates_first_stop.2.2 cyclingStore "*" 5 (fun _ => rfl)⟩

/-! ### C3 — connection resolution -/

/-- C3: `resolve` returns the first exact name match (and
`ConnectionNotFound` when no entry matches); with no name it returns
the sole entry of a one-entry registry — the same entry that resolving
by that connection's own name returns — and `AmbiguousConnection` on a
registry of any other size, never a guessed entry. -/
theorem resolve_spec (s : McpRedisServer) :
    (∀ (n : String) (l1 : List RedisConnection) (c : RedisConnection) (l2 : List RedisConnection),
       s.connections = l1 ++ c :: l2 → (∀ x ∈ l1, x.name ≠ n) → c.name = n →
       s.resolve (some n) = .ok c)
    ∧ (∀ n : String, (∀ x ∈ s.connections, x.name ≠ n) →
       s.resolve (some n) = .error (.ConnectionNotFound n))
    ∧ (∀ c : RedisConnection, s.connections = [c] →
       s.resolve none = .ok c ∧ s.resolve (some c.name) = .ok c)
    ∧ (s.connections.length ≠ 1 → s.resolve none = .error .AmbiguousConnection) := by
  refine ⟨?_, ?_, ?_, ?_⟩
  · intro n l1 c l2 hconn hl1 hc
    have hfind : (s.connections.find? (fun x => x.name == n)) = some c := by
      rw [hconn]
      exact find?_append_first _ l1 c l2
        (fun x hx => by simpa using hl1 x hx) (by simpa using hc)
    simp [McpRedisServer.resolve, hfind]
  · intro n hall
    have hfind : (s.connections.find? (fun x => x.name == n)) = none := by
      rw [List.find?_eq_none]
      intro x hx
      simpa using hall x hx
    simp [McpRedisServer.resolve, hfind]
  · intro c hconn
    constructor
    · simp [McpRedisServer.resolve, hconn]
    · have hfind : (s.connections.find? (fun x => x.name == c.name)) = some c := by
        rw [hconn]
        simp [List.find?]
      simp [McpRedisServer.resolve, hfind]
  · intro hlen
    rcases hc : s.connections with _ | ⟨a, _ | ⟨b, t⟩⟩
    · simp [McpRedisServer.resolve, hc]
    · rw [hc] at hlen; simp at hlen
    · simp [McpRedisServer.resolve, hc]

/-- Witness for C3 on a concrete one-entry registry. -/
theorem resolve_spec_witness :
    srv1.resolve none = .ok ⟨"redis", "redis://127.0.0.1:6379"⟩
    ∧ srv1.resolve (some "redis") = .ok ⟨"redis", "redis://127.0.0.1:6379"⟩ :=
  (resolve_spec srv1).2.2.1 ⟨"redis", "redis://127.0.0.1:6379"⟩ rfl

/-! ### C4 — absent key in do_get -/

/-- C4: when the store reports type "none", `do_get` returns the
absent-key success payload with a trace of exactly one TYPE command —
no follow-up retrieval — and this holds for every store, in particular
stores whose every retrieval response is an error, so no `StoreError`
(or any other typed failure) can surface for this case. -/
theorem doGet_absent_key_success (s : McpRedisServer) (store : Store)
    (conn : Option String) (key : String) (c : RedisConnection)
    (hres : s.resolve conn = .ok c)
    (htype : store.typeOf key = .ok "none") :
    s.doGet store conn key =
      (.ok (.obj [("error", .str "Key does not exist"), ("key", .str key)]),
       [Cmd.typeCmd key]) := by
  simp only [McpRedisServer.doGet, hres, htype]
  rfl

/-- Witness for C4: a store whose every retrieval command errors. -/
theorem doGet_absent_key_success_witness :
    srv1.doGet absentStore none "missing" =
      (.ok (.obj [("error", .str "Key does not exist"), ("key", .str "missing")]),
       [Cmd.typeCmd "missing"]) :=
  doGet_absent_key_success srv1 absentStore none "missing"
    ⟨"redis", "redis://127.0.0.1:6379"⟩ rfl rfl

/-! ### C5 — classification of local validation failures -/

/-- C5 counterexample: the local validation failure
`Other("Pattern must not contain null bytes")` is classified by
`to_mcp_error` into the internal category, not the invalid-input
category as the claim states. -/
theorem other_error_internal_cex :
    to_mcp_error (.Other "Pattern must not contain null bytes") =
      .internalError "Pattern must not contain null bytes"
    ∧ (to_mcp_error (.Other "Pattern must not contain null bytes")).isInvalidParams
        = false :=
  ⟨rfl, rfl⟩

/-- C5 amended: every local validation failure (the `Other` variant)
is classified into the internal category — grouped with store errors by
`to_mcp_error` — and that internal-class failure is what a null-byte
pattern surfaces at the `do_scan_keys` boundary. -/
theorem other_error_classified_internal :
    (∀ m : String, to_mcp_error (.Other m) = .internalError m)
    ∧ (∀ (s : McpRedisServer) (store : Store) (conn : Option String)
         (cnt : Option Nat) (pat : String) (c : RedisConnection),
        s.resolve conn = .ok c → Char.ofNat 0 ∈ pat.data →
        s.doScanKeys store ⟨conn, some pat, cnt⟩ =
          (.error (.internalError "Pattern must not contain null bytes"), [])) := by
  constructor
  · intro m; rfl
  · intro s store conn cnt pat c hres hnul
    have hval : validate_pattern pat =
        .error (.Other "Pattern must not contain null bytes") := by
      unfold validate_pattern
      rw [if_pos]
      exact List.any_eq_true.mpr ⟨Char.ofNat 0, hnul, by simp⟩
    simp only [McpRedisServer.doScanKeys, hres, Option.getD_some, hval]
    rfl

/-- Witness for C5's amended theorem on a concrete null-byte pattern. -/
theorem other_error_classified_internal_witness :
    srv1.doScanKeys absentStore ⟨none, some nulPattern, none⟩ =
      (.error (.internalError "Pattern must not contain null bytes"), []) :=
  other_error_classified_internal.2 srv1 absentStore none none nulPattern
    ⟨"redis", "redis://127.0.0.1:6379"⟩ rfl (by decide)

/-! ### C7 — null-byte pattern validation -/

/-- C7: a pattern containing a null byte makes both `do_scan_keys` and
`do_search_keys` fail with the local validation error
`Other("Pattern must not contain null bytes")` with an empty command
trace (no store round trip); every pattern without a null byte passes
validation. -/
theorem null_pattern_rejected_before_store (s : McpRedisServer) (store : Store)
    (conn : Option String) (cnt : Option Nat) (pat : String) (c : RedisConnection)
    (hres : s.resolve conn = .ok c)
    (hnul : Char.ofNat 0 ∈ pat.data) :
    validate_pattern pat = .error (.Other "Pattern must not contain null bytes")
    ∧ s.doScanKeys store ⟨conn, some pat, cnt⟩ =
      (.error (to_mcp_error (.Other "Pattern must not contain null bytes")), [])
    ∧ s.doSearchKeys store ⟨conn, some pat, cnt⟩ =
      (.error (to_mcp_error (.Other "Pattern must not contain null bytes")), [])
    ∧ (∀ p2 : String, Char.ofNat 0 ∉ p2.data → validate_pattern p2 = .ok ()) := by
  have hval : validate_pattern pat =
      .error (.Other "Pattern must not contain null bytes") := by
    unfold validate_pattern
    rw [if_pos]
    exact List.any_eq_true.mpr ⟨Char.ofNat 0, hnul, by simp⟩
  refine ⟨hval, ?_, ?_, ?_⟩
  · simp only [McpRedisServer.doScanKeys, hres, Option.getD_some, hval]
  · simp only [McpRedisServer.doSearchKeys, hres, Option.getD_some, hval]
  · intro p2 hno
    unfold validate_pattern
    cases h : p2.data.any (fun c => c == Char.ofNat 0) with
    | false => simp [h]
    | true =>
      exfalso
      obtain ⟨x, hx, hpx⟩ := List.any_eq_true.mp h
      simp only [beq_iff_eq] at hpx
      exact hno (hpx ▸ hx)

/-- Witness for C7 on a concrete null-byte pattern. -/
theorem null_pattern_rejected_before_store_witness :
    validate_pattern nulPattern =
      .error (.Other "Pattern must not contain null bytes")
    ∧ srv1.doScanKeys absentStore ⟨none, some nulPattern, none⟩ =
      (.error (to_mcp_error (.Other "Pattern must not contain null bytes")), [])
    ∧ srv1.doSearchKeys absentStore ⟨none, some nulPattern, none⟩ =
      (.error (to_mcp_error (.Other "Pattern must not contain null bytes")), [])
    ∧ (∀ p2 : String, Char.ofNat 0 ∉ p2.data → validate_pattern p2 = .ok ()) :=
  null_pattern_rejected_before_store srv1 absentStore none none nulPattern
    ⟨"redis", "redis://127.0.0.1:6379"⟩ rfl (by decide)

/-! ### C8 — zset scores stay numeric; cap 2 returns first two pairs -/

/-- The score-ordered zset fixture {one:1, two:2, three:3} behind a
store whose every other retrieval response is an error. -/
def zStore : Store :=
  ⟨fun _ => .error "boom", fun _ => .ok "zset", fun _ => .error "boom",
   fun _ _ _ => .error "boom", fun _ => .error "boom",
   fun _ start stop => .ok (rangeSlice [("one", 1), ("two", 2), ("three", 3)] start stop),
   fun _ => .error "boom", fun _ => .error "boom"⟩

/-- C8: for a zset key whose store serves the ZRANGE contract over the
score-ordered entry list, `do_get` returns every member/score pair with
the score as a JSON number (`float`), never a string, and
`do_get_set_members` with cap 2 returns exactly the first 2 pairs of
the score-ordered list, again with numeric scores. -/
theorem zset_scores_numeric_and_cap_two (s : McpRedisServer) (store : Store)
    (conn : Option String) (key : String) (c : RedisConnection)
    (entries : List (String × Score))
    (hres : s.resolve conn = .ok c)
    (htype : store.typeOf key = .ok "zset")
    (hz : ∀ start stop : Int, store.zrange key start stop =
            .ok (rangeSlice entries start stop)) :
    s.doGet store conn key =
      (.ok (getPayload key "zset" (.arr (entries.map memberObj))),
       [Cmd.typeCmd key, Cmd.zrange key 0 (-1)])
    ∧ (∀ j ∈ entries.map memberObj, ∃ m sc,
        j = Json.obj [("member", .str m), ("score", .float sc)])
    ∧ s.doGetSetMembers store ⟨conn, key, some 2⟩ =
      (.ok (zsetMembersPayload key (entries.take 2)),
       [Cmd.typeCmd key, Cmd.zrange key 0 1]) := by
  refine ⟨?_, ?_, ?_⟩
  · simp only [McpRedisServer.doGet, hres, htype]
    rw [if_pos trivial, hz, rangeSlice_zero_neg_one]
    rfl
  · intro j hj
    obtain ⟨e, _, rfl⟩ := List.mem_map.mp hj
    exact ⟨e.1, e.2, rfl⟩
  · simp only [McpRedisServer.doGetSetMembers, hres, htype]
    rw [if_pos trivial, show ((2:Int) - 1) = 1 from rfl, hz,
        rangeSlice_zero_nonneg _ 1 (by omega)]
    rfl

/-- Witness for C8 over the concrete three-member zset store. -/
theorem zset_scores_numeric_and_cap_two_witness :
    srv1.doGet zStore none "z" =
      (.ok (getPayload "z" "zset"
        (.arr ([("one", (1:Score)), ("two", 2), ("three", 3)].map memberObj))),
       [Cmd.typeCmd "z", Cmd.zrange "z" 0 (-1)])
    ∧ srv1.doGetSetMembers zStore ⟨none, "z", some 2⟩ =
      (.ok (zsetMembersPayload "z"
        ([("one", (1:Score)), ("two", 2), ("three", 3)].take 2)),
       [Cmd.typeCmd "z", Cmd.zrange "z" 0 1]) := by
  have h := zset_scores_numeric_and_cap_two srv1 zStore none "z"
    ⟨"redis", "redis://127.0.0.1:6379"⟩
    [("one", (1:Score)), ("two", 2), ("three", 3)] rfl rfl (fun _ _ => rfl)
  exact ⟨h.1, h.2.2⟩

/-! ### C9 — zset cap 0 yields stop -1 and the whole membership -/

/-- C9: in `do_get_set_members` on a zset key served by the ZRANGE
contract, a requested cap of 0 produces the stop index -1 (cap - 1) in
the issued ZRANGE command, so the entire membership is returned rather
than zero members; every positive cap yields at most that many
members. -/
theorem zset_cap_zero_returns_all (s : McpRedisServer) (store : Store)
    (conn : Option String) (key : String) (c : RedisConnection)
    (entries : List (String × Score))
    (hres : s.resolve conn = .ok c)
    (htype : store.typeOf key = .ok "zset")
    (hz : ∀ start stop : Int, store.zrange key start stop =
            .ok (rangeSlice entries start stop)) :
    s.doGetSetMembers store ⟨conn, key, some 0⟩ =
      (.ok (zsetMembersPayload key entries),
       [Cmd.typeCmd key, Cmd.zrange key 0 (-1)])
    ∧ (∀ cnt : Int, 0 < cnt →
        s.doGetSetMembers store ⟨conn, key, some cnt⟩ =
          (.ok (zsetMembersPayload key (entries.take ((cnt - 1).toNat + 1))),
           [Cmd.typeCmd key, Cmd.zrange key 0 (cnt - 1)])
        ∧ ((entries.take ((cnt - 1).toNat + 1)).length : Int) ≤ cnt) := by
  constructor
  · simp only [McpRedisServer.doGetSetMembers, hres, htype]
    rw [if_pos trivial, show ((0:Int) - 1) = -1 from rfl, hz,
        rangeSlice_zero_neg_one]
    rfl
  · intro cnt hcnt
    constructor
    · simp only [McpRedisServer.doGetSetMembers, hres, htype]
      rw [if_pos trivial, hz, rangeSlice_zero_nonneg _ (cnt - 1) (by omega)]
      rfl
    · rw [List.length_take]
      have := min_le_left ((cnt - 1).toNat + 1) entries.length
      omega

/-- Witness for C9 over the concrete three-member zset store. -/
theorem zset_cap_zero_returns_all_witness :
    srv1.doGetSetMembers zStore ⟨none, "z", some 0⟩ =
      (.ok (zsetMembersPayload "z" [("one", (1:Score)), ("two", 2), ("three", 3)]),
       [Cmd.typeCmd "z", Cmd.zrange "z" 0 (-1)])
    ∧ srv1.doGetSetMembers zStore ⟨none, "z", some 1⟩ =
      (.ok (zsetMembersPayload "z"
        ([("one", (1:Score)), ("two", 2), ("three", 3)].take (((1:Int) - 1).toNat + 1))),
       [Cmd.typeCmd "z", Cmd.zrange "z" 0 ((1:Int) - 1)]) := by
  have h := zset_cap_zero_returns_all srv1 zStore none "z"
    ⟨"redis", "redis://127.0.0.1:6379"⟩
    [("one", (1:Score)), ("two", 2), ("three", 3)] rfl rfl (fun _ _ => rfl)
  exact ⟨h.1, (h.2 1 (by omega)).1⟩

/-! ### C10 — wrong-type key in do_get_set_members -/

/-- C10: when the store-reported type is neither "set" nor "zset",
`do_get_set_members` returns a success payload carrying an error field
— the absent-key payload for "none", the wrong-type payload otherwise —
with a trace of exactly one TYPE command (no retrieval), and never a
typed failure; this holds for every store, including stores whose every
retrieval response is an error. -/
theorem getSetMembers_non_set_payload (s : McpRedisServer) (store : Store)
    (conn : Option String) (key : String) (cnt : Option Int)
    (c : RedisConnection) (keyType : String)
    (hres : s.resolve conn = .ok c)
    (htype : store.typeOf key = .ok keyType)
    (hset : keyType ≠ "set") (hzset : keyType ≠ "zset") :
    (keyType = "none" →
      s.doGetSetMembers store ⟨conn, key, cnt⟩ =
        (.ok (.obj [("error", .str "Key does not exist"), ("key", .str key)]),
         [Cmd.typeCmd key]))
    ∧ (keyType ≠ "none" →
      s.doGetSetMembers store ⟨conn, key, cnt⟩ =
        (.ok (.obj [("error", .str ("Key is type " ++ sq ++ keyType ++ sq
                                      ++ ", not a set or zset")),
                    ("key", .str key)]),
         [Cmd.typeCmd key])) := by
  simp only [McpRedisServer.doGetSetMembers, hres, htype]
  rw [if_neg hset, if_neg hzset]
  constructor
  · intro h
    rw [if_pos h]
  · intro h
    rw [if_neg h]

/-- Witness for C10: a store reporting a stream-typed key, with every
retrieval response an error. -/
theorem getSetMembers_non_set_payload_witness :
    srv1.doGetSetMembers streamStore ⟨none, "st", some 5⟩ =
      (.ok (.obj [("error", .str ("Key is type " ++ sq ++ "stream" ++ sq
                                    ++ ", not a set or zset")),
                  ("key", .str "st")]),
       [Cmd.typeCmd "st"]) :=
  (getSetMembers_non_set_payload srv1 streamStore none "st" (some 5)
    ⟨"redis", "redis://127.0.0.1:6379"⟩ "stream" rfl rfl
    (by decide) (by decide)).2 (by decide)

end McpRedis
